import Mathlib

/-!
# ss-mongo-store: the MongoDB adapter of `mongo.go`

A shallow embedding of the five storage operations of `ssMongoHandler`
(`Create`, `Read`, `Update`, `Delete`, `List`).

* The MongoDB client library is external to the repository.  It appears here as
  a record of functions (`Driver`) over an explicit database state `σ`; the
  adapter is embedded for every such driver.
* `uuid.New().String()` and `time.Now().Unix()` are read at most once per call,
  so each operation takes the value read as an argument.
* Go `error` values are `Option Err`, `nil` being `none`.
* Every operation also reports the requests it handed to the driver, in order.
-/

set_option autoImplicit false

/-! ## Data model -/

/-- Go `error` payload; a Go `error` is an `Option Err`, with `nil` as `none`. -/
abbrev Err := String

/-- Modelled from the spec: the record behind a `store.Item`.  The fields are those of
`successStruct` in `mongo_test.go`; the two flags say whether the dynamic type of the
record implements `store.IDSetter` and `store.TimeTracker`, which is what the type
assertions in `Create` and `Update` test. -/
structure Item where
  Namespace : String
  Id : String
  Status : String
  Created : Int
  Updated : Int
  isIDSetter : Bool
  isTimeTracker : Bool
deriving DecidableEq, Repr

/-- `func (t *successStruct) GetNamespace() string`. -/
def Item.GetNamespace (t : Item) : String := t.Namespace

/-- `func (t *successStruct) GetId() string`. -/
def Item.GetId (t : Item) : String := t.Id

/-- Modelled from the spec: `SetID(string)` of the identifier-settable capability,
storing the identifier that `GetId` reads. -/
def Item.SetID (t : Item) (id : String) : Item := { t with Id := id }

/-- `func (t *successStruct) SetCreated(unixTime int64)`. -/
def Item.SetCreated (t : Item) (unixTime : Int) : Item := { t with Created := unixTime }

/-- `func (t *successStruct) SetUpdated(unixTime int64)`. -/
def Item.SetUpdated (t : Item) (unixTime : Int) : Item := { t with Updated := unixTime }

/-- `func (t *successStruct) GetCreated() int64`. -/
def Item.GetCreated (t : Item) : Int := t.Created

/-- `func (t *successStruct) GetUpdated() int64`. -/
def Item.GetUpdated (t : Item) : Int := t.Updated

/-- `store.Items`: a slice of records.  The slots are distinct records. -/
abbrev Items := List Item

/-- `store.ListOpt`, the fields `List` reads.  `Page` and `Limit` are `int64`
(both feed `options.FindOptions`, whose `Skip` and `Limit` are `*int64`). -/
structure ListOpt where
  Page : Int
  Limit : Int
  Sort_ : Int
deriving DecidableEq, Repr

/-- Reduction of an integer to the two's-complement `int64` it is stored as. -/
def wrapInt64 (x : Int) : Int := (x + 2 ^ 63) % 2 ^ 64 - 2 ^ 63

/-- The values an `int64` holds. -/
def inInt64 (x : Int) : Prop := -(2 ^ 63) ≤ x ∧ x < 2 ^ 63

instance (x : Int) : Decidable (inInt64 x) := by unfold inInt64; infer_instance

/-- A `bson.D` with string values (a query filter): an ordered list of key/value pairs. -/
abbrev BsonD := List (String × String)

/-- A `bson.D` sort specification: field name and direction. -/
abbrev SortSpec := List (String × Int)

/-- `options.FindOptions`, the fields `List` sets; `none` is the Go `nil`. -/
structure FindOptions where
  Skip : Option Int
  Limit : Option Int
  Sort_ : Option SortSpec
deriving DecidableEq, Repr

/-- `mongo.UpdateResult`, the fields `Update` reads. -/
structure UpdateResult where
  MatchedCount : Int
  ModifiedCount : Int
deriving DecidableEq, Repr

/-- `mongo.DeleteResult`. -/
structure DeleteResult where
  DeletedCount : Int
deriving DecidableEq, Repr

/-- The MongoDB client, as the adapter uses it.  `σ` is the state of the database,
`Doc` a stored document.  Each function takes the collection name first.
`Find` gives the documents the cursor yields, in cursor order; `Decode` is
`cursor.Decode` / `SingleResult.Decode` into a record, giving the record as it is
left and the error. -/
structure Driver (σ Doc : Type) where
  InsertOne : σ → String → Item → σ × Option Err
  FindOne : σ → String → BsonD → Except Err Doc
  UpdateOne : σ → String → BsonD → Item → σ × UpdateResult × Option Err
  DeleteOne : σ → String → BsonD → σ × DeleteResult × Option Err
  Find : σ → String → BsonD → FindOptions → Except Err (List Doc)
  Decode : Doc → Item → Item × Option Err

/-- A request handed to the driver. -/
inductive Request where
  | insertOne (collection : String) (document : Item)
  | findOne (collection : String) (filter : BsonD)
  | updateOne (collection : String) (filter : BsonD) (set : Item)
  | deleteOne (collection : String) (filter : BsonD)
  | find (collection : String) (filter : BsonD) (opts : FindOptions)
deriving DecidableEq, Repr

/-- What a single-record operation leaves: the record as the caller sees it after
the call, the returned `error`, the database state, and the requests issued. -/
structure OpResult (σ : Type) where
  item : Item
  err : Option Err
  state : σ
  reqs : List Request

/-- `type ssMongoHandler struct`: the handle on the database. -/
structure ssMongoHandler (σ Doc : Type) where
  dbP : Driver σ Doc

/-! ## Single-record operations -/

section ops
variable {σ Doc : Type}

/-- `func (m *ssMongoHandler) Create(i store.Item) error`. -/
def ssMongoHandler.Create (m : ssMongoHandler σ Doc) (uuid : String) (unixTime : Int)
    (s : σ) (i : Item) : OpResult σ :=
  let i := if i.isIDSetter then i.SetID uuid else i
  let i := if i.isTimeTracker then (i.SetCreated unixTime).SetUpdated unixTime else i
  let collection := i.GetNamespace
  let r := m.dbP.InsertOne s collection i
  match r.2 with
  | some err => ⟨i, some err, r.1, [Request.insertOne collection i]⟩
  | none => ⟨i, none, r.1, [Request.insertOne collection i]⟩

/-- `func (m *ssMongoHandler) Read(i store.Item) error`. -/
def ssMongoHandler.Read (m : ssMongoHandler σ Doc) (s : σ) (i : Item) : OpResult σ :=
  let collection := i.GetNamespace
  let filter : BsonD := [("_id", i.GetId)]
  match m.dbP.FindOne s collection filter with
  | .error err => ⟨i, some err, s, [Request.findOne collection filter]⟩
  | .ok doc =>
    let d := m.dbP.Decode doc i
    match d.2 with
    | some err => ⟨d.1, some err, s, [Request.findOne collection filter]⟩
    | none => ⟨d.1, none, s, [Request.findOne collection filter]⟩

/-- `func (m *ssMongoHandler) Update(i store.Item) error`. -/
def ssMongoHandler.Update (m : ssMongoHandler σ Doc) (unixTime : Int)
    (s : σ) (i : Item) : OpResult σ :=
  let i := if i.isTimeTracker then i.SetUpdated unixTime else i
  let collection := i.GetNamespace
  let filter : BsonD := [("_id", i.GetId)]
  let r := m.dbP.UpdateOne s collection filter i
  let updateResult := r.2.1
  let err := r.2.2
  match err with
  | some e => ⟨i, some e, r.1, [Request.updateOne collection filter i]⟩
  | none =>
    if updateResult.MatchedCount ≠ 1 ∧ updateResult.ModifiedCount ≠ 1 then
      ⟨i, err, r.1, [Request.updateOne collection filter i]⟩
    else
      ⟨i, none, r.1, [Request.updateOne collection filter i]⟩

/-- `func (m *ssMongoHandler) Delete(i store.Item) error`. -/
def ssMongoHandler.Delete (m : ssMongoHandler σ Doc) (s : σ) (i : Item) : OpResult σ :=
  let collection := i.GetNamespace
  let filter : BsonD := [("_id", i.GetId)]
  let r := m.dbP.DeleteOne s collection filter
  let deleteResult := r.2.1
  let err := r.2.2
  match err with
  | some e => ⟨i, some e, r.1, [Request.deleteOne collection filter]⟩
  | none =>
    if deleteResult.DeletedCount ≠ 1 then
      ⟨i, err, r.1, [Request.deleteOne collection filter]⟩
    else
      ⟨i, none, r.1, [Request.deleteOne collection filter]⟩

end ops

/-! ## List -/

/-- How a call of `List` ends: it returns `(n, err)`, or an index expression
`i[k]` is out of range and the Go runtime panics. -/
inductive ListOutcome where
  | returned (n : Nat) (err : Option Err)
  | panicked
deriving DecidableEq, Repr

/-- What `List` leaves: how it ended, the slots afterwards, the requests issued, and
the number of `cursor.Decode` calls made. -/
structure ListResult where
  outcome : ListOutcome
  items : Items
  reqs : List Request
  decoded : Nat
deriving DecidableEq, Repr

section list
variable {σ Doc : Type}

/-- The loop `for cursor.Next(ctx) { err = cursor.Decode(i[listCounter]); ... ; listCounter++ }`
over the documents the cursor still has to yield.  The result is the outcome, the
slots, and the number of `Decode` calls, counted from `decoded`. -/
def cursorLoop (Decode : Doc → Item → Item × Option Err) :
    List Doc → Nat → Items → Nat → ListOutcome × Items × Nat
  | [], listCounter, i, decoded => (ListOutcome.returned listCounter none, i, decoded)
  | doc :: rest, listCounter, i, decoded =>
    match i[listCounter]? with
    | none => (ListOutcome.panicked, i, decoded)
    | some slot =>
      let d := Decode doc slot
      match d.2 with
      | some err => (ListOutcome.returned 0 (some err), i.set listCounter d.1, decoded + 1)
      | none => cursorLoop Decode rest (listCounter + 1) (i.set listCounter d.1) (decoded + 1)

/-- The body shared, word for word, by the five `case`s of the `switch` in `List`:
`collection.Find(ctx, bson.D{}, &opts)`, the error check, and the decode loop. -/
def findAndDecode (m : ssMongoHandler σ Doc) (s : σ) (collection : String)
    (opts : FindOptions) (i : Items) : ListResult :=
  match m.dbP.Find s collection [] opts with
  | .error err => ⟨ListOutcome.returned 0 (some err), i, [Request.find collection [] opts], 0⟩
  | .ok cursor =>
    let r := cursorLoop m.dbP.Decode cursor 0 i 0
    ⟨r.1, r.2.1, [Request.find collection [] opts], r.2.2⟩

/-- `func (m *ssMongoHandler) List(i store.Items, o store.ListOpt) (int, error)`. -/
def ssMongoHandler.List (m : ssMongoHandler σ Doc) (s : σ) (i : Items) (o : ListOpt) :
    ListResult :=
  match i with
  | [] => ⟨ListOutcome.panicked, i, [], 0⟩
  | i0 :: _ =>
    let collection := i0.GetNamespace
    let skip := wrapInt64 (o.Page * o.Limit)
    let order := o.Sort_
    let opts : FindOptions := ⟨some skip, some o.Limit, none⟩
    if order = 0 then
      findAndDecode m s collection opts i
    else if order = 1 then
      findAndDecode m s collection { opts with Sort_ := some [("created", 1)] } i
    else if order = 2 then
      findAndDecode m s collection { opts with Sort_ := some [("created", -1)] } i
    else if order = 3 then
      findAndDecode m s collection { opts with Sort_ := some [("updated", 1)] } i
    else if order = 4 then
      findAndDecode m s collection { opts with Sort_ := some [("updated", -1)] } i
    else
      ⟨ListOutcome.returned 0 none, i, [], 0⟩

end list

/-! ## Specification-side definitions -/

/-- The sort table as the specification words it: `0` no ordering, `1` created
ascending, `2` created descending, `3` updated ascending, `4` updated descending. -/
def specSortRule (sort : Int) : Option SortSpec :=
  if sort = 1 then some [("created", 1)]
  else if sort = 2 then some [("created", -1)]
  else if sort = 3 then some [("updated", 1)]
  else if sort = 4 then some [("updated", -1)]
  else none

/-- A blank record for `i`, as `TestNewMongoRead` builds it: a record of the type of `i`
with the namespace and the identifier of `i` and every other field at its zero value. -/
def Item.isBlankFor (blank i : Item) : Prop :=
  blank.Namespace = i.Namespace ∧ blank.Id = i.Id ∧
    blank.Status = "" ∧ blank.Created = 0 ∧ blank.Updated = 0 ∧
    blank.isIDSetter = i.isIDSetter ∧ blank.isTimeTracker = i.isTimeTracker

instance (blank i : Item) : Decidable (blank.isBlankFor i) := by
  unfold Item.isBlankFor; infer_instance

/-- A driver on which a successful insert is visible to the next lookup by `_id` in the
same collection, and on which the stored document decodes, into a blank record for the
inserted one, to the record that was inserted: the record type is stable under the
encoding.  Nothing is asked of decoding into a record that is not blank. -/
def ReadYourWrite {σ Doc : Type} (drv : Driver σ Doc) : Prop :=
  ∀ (s s' : σ) (collection : String) (i : Item),
    drv.InsertOne s collection i = (s', none) →
    ∃ doc, drv.FindOne s' collection [("_id", i.GetId)] = .ok doc ∧
      ∀ blank : Item, blank.isBlankFor i → drv.Decode doc blank = (i, none)

/-! ## A reference driver

An in-memory database on which the operations can be evaluated: a list of stored
`(collection, document)` pairs in insertion order, documents being the records'
field sets, with `_id` unique within a collection.  As the struct tags of
`successStruct` say `omitempty` for status, created and updated, a zero value of one
of these fields stands for a field the document does not have. -/

/-- The database of the reference driver. -/
abbrev MemDB := List (String × Item)

/-- Whether a stored document satisfies a filter; the adapter only filters on `_id`,
or not at all. -/
def memMatches (filter : BsonD) (d : Item) : Bool :=
  filter.all (fun kv => kv.1 == "_id" && kv.2 == d.Id)

/-- Whether a stored pair is a document of `collection` that satisfies `filter`. -/
def memSelects (collection : String) (filter : BsonD) (e : String × Item) : Bool :=
  e.1 == collection && memMatches filter e.2

/-- The value of a stored document under a sort key. -/
def memKey (field : String) (d : Item) : Int :=
  if field = "created" then d.Created else if field = "updated" then d.Updated else 0

/-- Ordering of the selected documents by the first key of a sort specification. -/
def memSort : Option SortSpec → List Item → List Item
  | some ((field, dir) :: _), ds =>
    if dir < 0 then ds.insertionSort (fun a b => memKey field b ≤ memKey field a)
    else ds.insertionSort (fun a b => memKey field a ≤ memKey field b)
  | _, ds => ds

/-- Replacement of the first stored pair selected by `p`. -/
def memReplace (p : String × Item → Bool) (new : String × Item) : MemDB → MemDB
  | [] => []
  | e :: es => if p e then new :: es else e :: memReplace p new es

/-- The fields of a document laid over a target: namespace and `_id` are always
written, a field the document does not have leaves the target's field as it was, and
the target keeps its type. -/
def memOverlay (doc : Item) (target : Item) : Item :=
  { target with
    Namespace := doc.Namespace
    Id := doc.Id
    Status := if doc.Status = "" then target.Status else doc.Status
    Created := if doc.Created = 0 then target.Created else doc.Created
    Updated := if doc.Updated = 0 then target.Updated else doc.Updated }

/-- Decoding of a stored document into a record. -/
def memDecode (doc : Item) (i : Item) : Item × Option Err :=
  (memOverlay doc i, none)

/-- The reference driver. -/
def memDriver : Driver MemDB Item where
  InsertOne := fun s collection i =>
    if s.any (memSelects collection [("_id", i.Id)]) then (s, some "E11000 duplicate key error")
    else (s ++ [(collection, i)], none)
  FindOne := fun s collection filter =>
    match s.find? (memSelects collection filter) with
    | some e => .ok e.2
    | none => .error "mongo: no documents in result"
  UpdateOne := fun s collection filter i =>
    match s.find? (memSelects collection filter) with
    | some e =>
      (memReplace (memSelects collection filter) (collection, memOverlay i e.2) s,
        ⟨1, if memOverlay i e.2 = e.2 then 0 else 1⟩, none)
    | none => (s, ⟨0, 0⟩, none)
  DeleteOne := fun s collection filter =>
    match s.find? (memSelects collection filter) with
    | some _ => (s.eraseP (memSelects collection filter), ⟨1⟩, none)
    | none => (s, ⟨0⟩, none)
  Find := fun s collection filter opts =>
    if opts.Skip.getD 0 < 0 then .error "skip value must be non-negative"
    else
      let ds := memSort opts.Sort_ ((s.filter (memSelects collection filter)).map Prod.snd)
      let ds := ds.drop (opts.Skip.getD 0).toNat
      .ok (if opts.Limit.getD 0 = 0 then ds else ds.take (opts.Limit.getD 0).natAbs)
  Decode := memDecode

/-- The adapter on the reference driver. -/
def memHandler : ssMongoHandler MemDB Item := ⟨memDriver⟩

/-- The reference driver with a decoder that rejects documents whose status is
`"corrupt"`, leaving the record as it was. -/
def strictHandler : ssMongoHandler MemDB Item :=
  ⟨{ memDriver with
      Decode := fun doc i => if doc.Status = "corrupt" then (i, some "cannot decode") else memDecode doc i }⟩

/-- A blank time-tracked record of the tests: `successStruct{Namespace: ns, Id: id}`. -/
def blankItem (ns id : String) : Item := ⟨ns, id, "", 0, 0, false, true⟩

/-- The record of `TestNewMongoCreate`, with an identifier and timestamps set by the
caller; `successStruct` has no `SetID`. -/
def createdByTest : Item := ⟨"StreamSpace", "caller-id", "Golang create", 5, 6, false, true⟩

/-- A record like `createdByTest` whose type also has `SetID`. -/
def settableItem : Item := ⟨"StreamSpace", "caller-id", "Golang create", 5, 6, true, true⟩

/-- A record whose type has neither `SetID` nor the time-tracking methods. -/
def plainItem : Item := ⟨"StreamSpace", "caller-id", "plain", 5, 6, false, false⟩

/-- The record of `TestNewMongoUpdate`, with an identifier no stored document has. -/
def updateOfAbsent : Item := ⟨"StreamSpace", "absent", "Golang update", 0, 1700000000, false, true⟩

/-- The slots of the list tests: three blank records of namespace `"StreamSpace"`. -/
def threeBlank : Items :=
  [blankItem "StreamSpace" "", blankItem "StreamSpace" "", blankItem "StreamSpace" ""]

/-- A stored document created at 7 and updated at 8. -/
def storedLate : Item := ⟨"StreamSpace", "a", "late", 7, 8, false, true⟩

/-- A stored document created at 3 and updated at 9. -/
def storedEarly : Item := ⟨"StreamSpace", "b", "early", 3, 9, false, true⟩

/-- A stored document that `strictHandler` does not decode. -/
def storedCorrupt : Item := ⟨"StreamSpace", "c", "corrupt", 4, 4, false, true⟩

/-- A database with two documents in `"StreamSpace"` and one in another collection. -/
def twoStored : MemDB :=
  [("StreamSpace", storedLate), ("Other", storedCorrupt), ("StreamSpace", storedEarly)]

/-- A database whose second document in `"StreamSpace"` does not decode. -/
def corruptStored : MemDB :=
  [("StreamSpace", storedLate), ("StreamSpace", storedCorrupt), ("StreamSpace", storedEarly)]

/-! ## Create, Update, Delete -/

section single
variable {σ Doc : Type}

/-- The record `Create` hands to `InsertOne` and leaves to the caller. -/
theorem Create_item (m : ssMongoHandler σ Doc) (uuid : String) (unixTime : Int) (s : σ)
    (i : Item) :
    (m.Create uuid unixTime s i).item =
      { i with
        Id := if i.isIDSetter then uuid else i.Id
        Created := if i.isTimeTracker then unixTime else i.Created
        Updated := if i.isTimeTracker then unixTime else i.Updated } := by
  obtain ⟨ns, id, st, c, u, a, b⟩ := i
  cases a <;> cases b <;>
    simp [ssMongoHandler.Create, Item.SetID, Item.SetCreated, Item.SetUpdated] <;> split <;> rfl

/-- The single request of `Create`: an insert of the record as it is left to the
caller, into the collection named by the namespace. -/
theorem Create_reqs (m : ssMongoHandler σ Doc) (uuid : String) (unixTime : Int) (s : σ)
    (i : Item) :
    (m.Create uuid unixTime s i).reqs =
      [Request.insertOne i.GetNamespace (m.Create uuid unixTime s i).item] := by
  obtain ⟨ns, id, st, c, u, a, b⟩ := i
  cases a <;> cases b <;>
    simp [ssMongoHandler.Create, Item.SetID, Item.SetCreated, Item.SetUpdated,
      Item.GetNamespace] <;>
    split <;> simp

/-- The error of `Update` is the error of the driver call, whatever the counts. -/
theorem Update_err (m : ssMongoHandler σ Doc) (unixTime : Int) (s : σ) (i : Item) :
    (m.Update unixTime s i).err =
      (m.dbP.UpdateOne s i.GetNamespace [("_id", i.GetId)]
        (if i.isTimeTracker then i.SetUpdated unixTime else i)).2.2 := by
  obtain ⟨ns, id, st, c, u, a, b⟩ := i
  cases b <;>
    simp only [ssMongoHandler.Update, Item.SetUpdated, Item.GetNamespace, Item.GetId] <;>
    split <;> simp_all

/-- The record `Update` leaves to the caller. -/
theorem Update_item (m : ssMongoHandler σ Doc) (unixTime : Int) (s : σ) (i : Item) :
    (m.Update unixTime s i).item = if i.isTimeTracker then i.SetUpdated unixTime else i := by
  obtain ⟨ns, id, st, c, u, a, b⟩ := i
  cases b <;> simp only [ssMongoHandler.Update] <;> split <;> simp <;> split <;> simp

/-- The error of `Delete` is the error of the driver call, whatever the count. -/
theorem Delete_err (m : ssMongoHandler σ Doc) (s : σ) (i : Item) :
    (m.Delete s i).err = (m.dbP.DeleteOne s i.GetNamespace [("_id", i.GetId)]).2.2 := by
  simp only [ssMongoHandler.Delete]
  split <;> simp_all

end single

/-- The whole result of `Create` in terms of the one driver call. -/
theorem Create_eq {σ Doc : Type} (m : ssMongoHandler σ Doc) (uuid : String) (unixTime : Int)
    (s : σ) (i : Item) :
    m.Create uuid unixTime s i =
      ⟨(m.Create uuid unixTime s i).item,
        (m.dbP.InsertOne s i.GetNamespace (m.Create uuid unixTime s i).item).2,
        (m.dbP.InsertOne s i.GetNamespace (m.Create uuid unixTime s i).item).1,
        [Request.insertOne i.GetNamespace (m.Create uuid unixTime s i).item]⟩ := by
  obtain ⟨ns, id, st, c, u, a, b⟩ := i
  cases a <;> cases b <;>
    simp only [ssMongoHandler.Create, Item.SetID, Item.SetCreated, Item.SetUpdated,
      Item.GetNamespace] <;>
    split <;> simp_all

/-- The reference driver satisfies `ReadYourWrite`. -/
theorem memDriver_readYourWrite : ReadYourWrite memDriver := by
  intro s s' collection i h
  have hsel : memSelects collection [("_id", i.Id)] (collection, i) = true := by
    simp [memSelects, memMatches]
  simp only [memDriver] at h
  split at h
  · simp at h
  · rename_i hany
    simp only [Prod.mk.injEq, and_true] at h
    subst h
    refine ⟨i, ?_, ?_⟩
    · simp only [memDriver, Item.GetId]
      have hnone : List.find? (memSelects collection [("_id", i.Id)]) s = none := by
        rw [List.find?_eq_none]
        intro x hx hp
        exact hany (List.any_eq_true.mpr ⟨x, hx, hp⟩)
      simp [List.find?_append, hnone, hsel]
    · intro blank hb
      obtain ⟨ns, id, st, c, u, a, b⟩ := i
      obtain ⟨bns, bid, bst, bc, bu, ba, bb⟩ := blank
      simp only [Item.isBlankFor] at hb
      obtain ⟨h1, h2, h3, h4, h5, h6, h7⟩ := hb
      subst h1 h2 h3 h4 h5 h6 h7
      simp only [memDriver, memDecode, memOverlay, Prod.mk.injEq, and_true, Item.mk.injEq,
        true_and]
      refine ⟨?_, ?_, ?_⟩ <;> split <;> simp_all

/-! ## The List loop -/

section listlemmas
variable {σ Doc : Type}

/-- With a sort value from 0 to 4 and a first slot, `List` is the shared case body run
on the options of that case. -/
theorem List_eq_findAndDecode (m : ssMongoHandler σ Doc) (s : σ) (i0 : Item) (rest : Items)
    (o : ListOpt) (h : o.Sort_ ∈ [0, 1, 2, 3, 4]) :
    m.List s (i0 :: rest) o =
      findAndDecode m s i0.GetNamespace
        ⟨some (wrapInt64 (o.Page * o.Limit)), some o.Limit, specSortRule o.Sort_⟩ (i0 :: rest) := by
  simp only [List.mem_cons, List.mem_singleton, List.not_mem_nil, or_false] at h
  rcases h with h | h | h | h | h <;> simp [ssMongoHandler.List, h, specSortRule]

/-- The decode loop when every document decodes and the slots suffice: it returns the
number of documents, fills the slots from `n` on in cursor order and leaves every other
slot as it was. -/
theorem cursorLoop_ok (Decode : Doc → Item → Item × Option Err) :
    ∀ (docs : List Doc) (n : Nat) (i : Items) (c : Nat),
      n + docs.length ≤ i.length →
      (∀ k d slot, docs[k]? = some d → i[n + k]? = some slot → (Decode d slot).2 = none) →
      (cursorLoop Decode docs n i c).1 = ListOutcome.returned (n + docs.length) none ∧
        (cursorLoop Decode docs n i c).2.2 = c + docs.length ∧
        (cursorLoop Decode docs n i c).2.1.length = i.length ∧
        (∀ k d slot, docs[k]? = some d → i[n + k]? = some slot →
          (cursorLoop Decode docs n i c).2.1[n + k]? = some (Decode d slot).1) ∧
        (∀ j, j < n ∨ n + docs.length ≤ j → (cursorLoop Decode docs n i c).2.1[j]? = i[j]?) := by
  intro docs
  induction docs with
  | nil =>
    intro n i c _ _
    simp [cursorLoop]
  | cons doc rest ih =>
    intro n i c hlen hdec
    have hn : n < i.length := by simp at hlen; omega
    have hslot : i[n]? = some i[n] := List.getElem?_eq_getElem hn
    have h0 : (Decode doc i[n]).2 = none := hdec 0 doc i[n] (by simp) (by simp)
    have hstep : cursorLoop Decode (doc :: rest) n i c =
        cursorLoop Decode rest (n + 1) (i.set n (Decode doc i[n]).1) (c + 1) := by
      simp [cursorLoop, hslot, h0]
    have hih := ih (n + 1) (i.set n (Decode doc i[n]).1) (c + 1)
      (by simp at hlen ⊢; omega)
      (fun k d slot hd hs => hdec (k + 1) d slot (by simpa using hd) (by
        rw [List.getElem?_set_ne (by omega)] at hs
        rw [← hs]; congr 1; omega))
    rw [hstep]
    obtain ⟨h1, h2, h3, h4, h5⟩ := hih
    refine ⟨?_, ?_, ?_, ?_, ?_⟩
    · rw [h1]; simp; omega
    · rw [h2]; simp; omega
    · rw [h3]; simp
    · intro k d slot hd hs
      cases k with
      | zero =>
        simp at hd hs
        rw [hslot] at hs
        simp at hs
        subst hd; subst hs
        have := h5 n (Or.inl (by omega))
        rw [List.getElem?_set_self hn] at this
        simpa using this
      | succ k =>
        have hs' : (i.set n (Decode doc i[n]).1)[n + 1 + k]? = some slot := by
          rw [List.getElem?_set_ne (by omega)]
          rw [← hs]; congr 1; omega
        have := h4 k d slot (by simpa using hd) hs'
        rw [← this]; congr 1; omega
    · intro j hj
      have hj' : j < n ∨ n + (rest.length + 1) ≤ j := by simpa using hj
      rw [h5 j (by omega)]
      exact List.getElem?_set_ne (by omega)

/-- The decode loop when the documents `pre` decode and the next one, `bad`, does not:
it returns count 0 with the decode error after `pre.length + 1` decodes, the slots of
`pre` hold their documents, and the slots after that of `bad` are as they were. -/
theorem cursorLoop_fail (Decode : Doc → Item → Item × Option Err) (bad : Doc)
    (rest : List Doc) (err : Err) :
    ∀ (pre : List Doc) (n : Nat) (i : Items) (c : Nat) (slot : Item),
      (∀ k d sl, pre[k]? = some d → i[n + k]? = some sl → (Decode d sl).2 = none) →
      i[n + pre.length]? = some slot →
      (Decode bad slot).2 = some err →
      (cursorLoop Decode (pre ++ bad :: rest) n i c).1 = ListOutcome.returned 0 (some err) ∧
        (cursorLoop Decode (pre ++ bad :: rest) n i c).2.2 = c + pre.length + 1 ∧
        (cursorLoop Decode (pre ++ bad :: rest) n i c).2.1.length = i.length ∧
        (∀ k d sl, pre[k]? = some d → i[n + k]? = some sl →
          (cursorLoop Decode (pre ++ bad :: rest) n i c).2.1[n + k]? = some (Decode d sl).1) ∧
        (cursorLoop Decode (pre ++ bad :: rest) n i c).2.1[n + pre.length]? =
          some (Decode bad slot).1 ∧
        (∀ j, j < n ∨ n + pre.length < j →
          (cursorLoop Decode (pre ++ bad :: rest) n i c).2.1[j]? = i[j]?) := by
  intro pre
  induction pre with
  | nil =>
    intro n i c slot _ hslot hbad
    have hslot' : i[n]? = some slot := by simpa using hslot
    have hn : n < i.length := by
      rcases Nat.lt_or_ge n i.length with h | h
      · exact h
      · rw [List.getElem?_eq_none h] at hslot'; cases hslot'
    have hstep : cursorLoop Decode ([] ++ bad :: rest) n i c =
        (ListOutcome.returned 0 (some err), i.set n (Decode bad slot).1, c + 1) := by
      simp [cursorLoop, hslot', hbad]
    rw [hstep]
    refine ⟨rfl, by simp, by simp, ?_, ?_, ?_⟩
    · intro k d sl hd
      simp at hd
    · simp [List.getElem?_set_self hn]
    · intro j hj
      exact List.getElem?_set_ne (by simp at hj; omega)
  | cons doc pre ih =>
    intro n i c slot hdec hslot hbad
    have hn : n < i.length := by
      rcases Nat.lt_or_ge (n + (doc :: pre).length) i.length with h | h
      · omega
      · rw [List.getElem?_eq_none h] at hslot; cases hslot
    have hslot0 : i[n]? = some i[n] := List.getElem?_eq_getElem hn
    have h0 : (Decode doc i[n]).2 = none := hdec 0 doc i[n] (by simp) (by simp)
    have hstep : cursorLoop Decode ((doc :: pre) ++ bad :: rest) n i c =
        cursorLoop Decode (pre ++ bad :: rest) (n + 1) (i.set n (Decode doc i[n]).1) (c + 1) := by
      simp [cursorLoop, hslot0, h0]
    have hih := ih (n + 1) (i.set n (Decode doc i[n]).1) (c + 1) slot
      (fun k d sl hd hs => hdec (k + 1) d sl (by simpa using hd) (by
        rw [List.getElem?_set_ne (by omega)] at hs
        rw [← hs]; congr 1; omega))
      (by
        rw [List.getElem?_set_ne (by omega)]
        rw [← hslot]; congr 1; simp; omega)
      hbad
    rw [hstep]
    obtain ⟨h1, h2, h3, h4, h5, h6⟩ := hih
    refine ⟨h1, ?_, ?_, ?_, ?_, ?_⟩
    · rw [h2]; simp; omega
    · rw [h3]; simp
    · intro k d sl hd hs
      cases k with
      | zero =>
        simp at hd hs
        rw [hslot0] at hs
        simp at hs
        subst hd; subst hs
        have := h6 n (Or.inl (by omega))
        rw [List.getElem?_set_self hn] at this
        simpa using this
      | succ k =>
        have hs' : (i.set n (Decode doc i[n]).1)[n + 1 + k]? = some sl := by
          rw [List.getElem?_set_ne (by omega)]
          rw [← hs]; congr 1; omega
        have := h4 k d sl (by simpa using hd) hs'
        rw [← this]; congr 1; omega
    · rw [← h5]; congr 1; simp; omega
    · intro j hj
      have hj' : j < n ∨ n + (pre.length + 1) < j := by simpa using hj
      rw [h6 j (by omega)]
      exact List.getElem?_set_ne (by omega)

end listlemmas

/-! ### C1, C2: the zero-match branches of Update and Delete -/

/-- C1, evaluated where the claim fails: on a database without documents the driver
answers the update of `updateOfAbsent` with no error, matched count 0 and modified
count 0, and `Update` returns the `nil` error, not a not-found error. -/
theorem Update_unmatched_returns_nil :
    (memDriver.UpdateOne [] "StreamSpace" [("_id", "absent")] updateOfAbsent).2 =
        (⟨0, 0⟩, none) ∧
      (memHandler.Update 1700000000 [] updateOfAbsent).err = none ∧
      (memHandler.Update 1700000000 [] updateOfAbsent).reqs =
        [Request.updateOne "StreamSpace" [("_id", "absent")] updateOfAbsent] := by
  decide

/-- C2, evaluated where the claim fails: on a database without documents the driver
answers the delete of `updateOfAbsent` with no error and deleted count 0, and `Delete`
returns the `nil` error. -/
theorem Delete_unmatched_returns_nil :
    (memDriver.DeleteOne [] "StreamSpace" [("_id", "absent")]).2 = (⟨0⟩, none) ∧
      (memHandler.Delete [] updateOfAbsent).err = none ∧
      (memHandler.Delete [] updateOfAbsent).reqs =
        [Request.deleteOne "StreamSpace" [("_id", "absent")]] := by
  decide

/-! ### C3, C4: what Create assigns -/

/-- C3: `Create` on a record with `SetID` leaves the generated UUID as its identifier,
whatever identifier it carried, and the one `InsertOne` call it makes, whose database
and error it returns, is handed the record with that identifier, which differs from
the caller's whenever the UUID does; on a record without `SetID` the identifier is
unchanged and `InsertOne` is handed the record under the caller's identifier. -/
theorem Create_assigns_identifier {σ Doc : Type} (m : ssMongoHandler σ Doc) (uuid : String)
    (unixTime : Int) (s : σ) (i : Item) :
    (i.isIDSetter = true →
      (m.Create uuid unixTime s i).item.GetId = uuid ∧
      (∃ doc, (m.Create uuid unixTime s i).reqs = [Request.insertOne i.GetNamespace doc] ∧
        doc.GetId = uuid ∧ doc = (m.Create uuid unixTime s i).item ∧
        (m.Create uuid unixTime s i).state = (m.dbP.InsertOne s i.GetNamespace doc).1 ∧
        (m.Create uuid unixTime s i).err = (m.dbP.InsertOne s i.GetNamespace doc).2) ∧
      (∀ id0, (m.Create uuid unixTime s (i.SetID id0)).item = (m.Create uuid unixTime s i).item) ∧
      (uuid ≠ i.GetId → (m.Create uuid unixTime s i).item.GetId ≠ i.GetId)) ∧
    (i.isIDSetter = false →
      (m.Create uuid unixTime s i).item.GetId = i.GetId ∧
      (∃ doc, (m.Create uuid unixTime s i).reqs = [Request.insertOne i.GetNamespace doc] ∧
        doc.GetId = i.GetId ∧ doc = (m.Create uuid unixTime s i).item ∧
        (m.Create uuid unixTime s i).state = (m.dbP.InsertOne s i.GetNamespace doc).1 ∧
        (m.Create uuid unixTime s i).err = (m.dbP.InsertOne s i.GetNamespace doc).2)) := by
  have hstate : (m.Create uuid unixTime s i).state =
      (m.dbP.InsertOne s i.GetNamespace (m.Create uuid unixTime s i).item).1 := by
    obtain ⟨ns, id, st, c, u, a, b⟩ := i
    cases a <;> cases b <;>
      simp only [ssMongoHandler.Create, Item.SetID, Item.SetCreated, Item.SetUpdated,
        Item.GetNamespace] <;>
      split <;> simp_all
  have herr : (m.Create uuid unixTime s i).err =
      (m.dbP.InsertOne s i.GetNamespace (m.Create uuid unixTime s i).item).2 := by
    obtain ⟨ns, id, st, c, u, a, b⟩ := i
    cases a <;> cases b <;>
      simp only [ssMongoHandler.Create, Item.SetID, Item.SetCreated, Item.SetUpdated,
        Item.GetNamespace] <;>
      split <;> simp_all
  refine ⟨fun h => ⟨?_, ⟨_, Create_reqs m uuid unixTime s i, ?_, rfl, hstate, herr⟩, ?_, ?_⟩,
    fun h => ⟨?_, ⟨_, Create_reqs m uuid unixTime s i, ?_, rfl, hstate, herr⟩⟩⟩
  all_goals simp [Create_item, Item.GetId, Item.SetID, h]

/-- C3 on the reference driver: a caller-supplied `"caller-id"` is replaced by the
generated `"u1"` when the type has `SetID`, and the database then holds the record
under `"u1"`; it is kept when the type has no `SetID`, and the database then holds the
record under `"caller-id"`. -/
theorem Create_assigns_identifier_witness :
    ((memHandler.Create "u1" 1700000000 [] settableItem).item.GetId = "u1" ∧
      (memHandler.Create "u1" 1700000000 [] settableItem).state =
        [("StreamSpace",
          ⟨"StreamSpace", "u1", "Golang create", 1700000000, 1700000000, true, true⟩)]) ∧
    ((memHandler.Create "u1" 1700000000 [] plainItem).item.GetId = "caller-id" ∧
      (memHandler.Create "u1" 1700000000 [] plainItem).state =
        [("StreamSpace", ⟨"StreamSpace", "caller-id", "plain", 5, 6, false, false⟩)]) := by
  have h1 := (Create_assigns_identifier memHandler "u1" 1700000000 [] settableItem).1 rfl
  have h2 := (Create_assigns_identifier memHandler "u1" 1700000000 [] plainItem).2 rfl
  obtain ⟨hid1, ⟨doc1, _, _, hdoc1, hstate1, _⟩, _, _⟩ := h1
  obtain ⟨hid2, ⟨doc2, _, _, hdoc2, hstate2, _⟩⟩ := h2
  refine ⟨⟨hid1, ?_⟩, ⟨hid2, ?_⟩⟩
  · rw [hstate1, hdoc1]; decide
  · rw [hstate2, hdoc2]; decide

/-- C4: `Create` on a time-tracked record leaves created and updated both equal to the
one clock reading of the call, whatever they were, and the one `InsertOne` call it
makes, whose database and error it returns, is handed the record with these values; on
a record that is not time-tracked both fields are as the caller set them, in the
record and in what `InsertOne` is handed. -/
theorem Create_sets_timestamps {σ Doc : Type} (m : ssMongoHandler σ Doc) (uuid : String)
    (unixTime : Int) (s : σ) (i : Item) :
    (i.isTimeTracker = true →
      (m.Create uuid unixTime s i).item.GetCreated = unixTime ∧
      (m.Create uuid unixTime s i).item.GetUpdated = unixTime ∧
      (m.Create uuid unixTime s i).item.GetCreated = (m.Create uuid unixTime s i).item.GetUpdated ∧
      (∃ doc, (m.Create uuid unixTime s i).reqs = [Request.insertOne i.GetNamespace doc] ∧
        doc.GetCreated = unixTime ∧ doc.GetUpdated = unixTime ∧
        doc = (m.Create uuid unixTime s i).item ∧
        (m.Create uuid unixTime s i).state = (m.dbP.InsertOne s i.GetNamespace doc).1 ∧
        (m.Create uuid unixTime s i).err = (m.dbP.InsertOne s i.GetNamespace doc).2) ∧
      (∀ c u, (m.Create uuid unixTime s ((i.SetCreated c).SetUpdated u)).item =
        (m.Create uuid unixTime s i).item)) ∧
    (i.isTimeTracker = false →
      (m.Create uuid unixTime s i).item.GetCreated = i.GetCreated ∧
      (m.Create uuid unixTime s i).item.GetUpdated = i.GetUpdated ∧
      (∃ doc, (m.Create uuid unixTime s i).reqs = [Request.insertOne i.GetNamespace doc] ∧
        doc.GetCreated = i.GetCreated ∧ doc.GetUpdated = i.GetUpdated ∧
        doc = (m.Create uuid unixTime s i).item ∧
        (m.Create uuid unixTime s i).state = (m.dbP.InsertOne s i.GetNamespace doc).1 ∧
        (m.Create uuid unixTime s i).err = (m.dbP.InsertOne s i.GetNamespace doc).2)) := by
  have hstate : (m.Create uuid unixTime s i).state =
      (m.dbP.InsertOne s i.GetNamespace (m.Create uuid unixTime s i).item).1 := by
    obtain ⟨ns, id, st, c, u, a, b⟩ := i
    cases a <;> cases b <;>
      simp only [ssMongoHandler.Create, Item.SetID, Item.SetCreated, Item.SetUpdated,
        Item.GetNamespace] <;>
      split <;> simp_all
  have herr : (m.Create uuid unixTime s i).err =
      (m.dbP.InsertOne s i.GetNamespace (m.Create uuid unixTime s i).item).2 := by
    obtain ⟨ns, id, st, c, u, a, b⟩ := i
    cases a <;> cases b <;>
      simp only [ssMongoHandler.Create, Item.SetID, Item.SetCreated, Item.SetUpdated,
        Item.GetNamespace] <;>
      split <;> simp_all
  refine ⟨fun h => ⟨?_, ?_, ?_, ⟨_, Create_reqs m uuid unixTime s i, ?_, ?_, rfl, hstate, herr⟩, ?_⟩,
    fun h => ⟨?_, ?_, ⟨_, Create_reqs m uuid unixTime s i, ?_, ?_, rfl, hstate, herr⟩⟩⟩
  all_goals
    simp [Create_item, Item.GetCreated, Item.GetUpdated, Item.SetCreated, Item.SetUpdated, h]

/-- C4 on the reference driver: the record of `TestNewMongoCreate`, carrying created 5
and updated 6, has both set to the clock reading and is stored with them; a record
that is not time-tracked keeps 5 and 6 and is stored with them. -/
theorem Create_sets_timestamps_witness :
    ((memHandler.Create "u1" 1700000000 [] createdByTest).item.GetCreated = 1700000000 ∧
      (memHandler.Create "u1" 1700000000 [] createdByTest).item.GetUpdated = 1700000000 ∧
      (memHandler.Create "u1" 1700000000 [] createdByTest).state =
        [("StreamSpace",
          ⟨"StreamSpace", "caller-id", "Golang create", 1700000000, 1700000000, false, true⟩)]) ∧
    ((memHandler.Create "u1" 1700000000 [] plainItem).item.GetCreated = 5 ∧
      (memHandler.Create "u1" 1700000000 [] plainItem).item.GetUpdated = 6 ∧
      (memHandler.Create "u1" 1700000000 [] plainItem).state =
        [("StreamSpace", ⟨"StreamSpace", "caller-id", "plain", 5, 6, false, false⟩)]) := by
  have h1 := (Create_sets_timestamps memHandler "u1" 1700000000 [] createdByTest).1 rfl
  have h2 := (Create_sets_timestamps memHandler "u1" 1700000000 [] plainItem).2 rfl
  obtain ⟨hc1, hu1, _, ⟨doc1, _, _, _, hdoc1, hstate1, _⟩, _⟩ := h1
  obtain ⟨hc2, hu2, ⟨doc2, _, _, _, hdoc2, hstate2, _⟩⟩ := h2
  refine ⟨⟨hc1, hu1, ?_⟩, ⟨hc2, hu2, ?_⟩⟩
  · rw [hstate1, hdoc1]; decide
  · rw [hstate2, hdoc2]; decide

/-! ### C5: what Update assigns -/

/-- C5 as stated fails: `Create` and then `Update` of the created record within the
same second both succeed on the reference driver, and the updated timestamp after
`Update` is not greater than before it. -/
theorem Update_same_second_not_increasing :
    (memHandler.Create "u1" 1700000000 [] createdByTest).err = none ∧
      (memHandler.Update 1700000000 (memHandler.Create "u1" 1700000000 [] createdByTest).state
        (memHandler.Create "u1" 1700000000 [] createdByTest).item).err = none ∧
      ¬ ((memHandler.Create "u1" 1700000000 [] createdByTest).item.GetUpdated <
        (memHandler.Update 1700000000 (memHandler.Create "u1" 1700000000 [] createdByTest).state
          (memHandler.Create "u1" 1700000000 [] createdByTest).item).item.GetUpdated) := by
  decide

/-- C5, amended: on a time-tracked record `Update` sets only the updated timestamp, to
the clock reading of the call; created timestamp, identifier and namespace are
unchanged, and the updated timestamp grows exactly when the reading is later than the
value the record carried. -/
theorem Update_sets_updated_only {σ Doc : Type} (m : ssMongoHandler σ Doc) (unixTime : Int)
    (s : σ) (i : Item) (h : i.isTimeTracker = true) :
    (m.Update unixTime s i).item = i.SetUpdated unixTime ∧
      (m.Update unixTime s i).item.GetUpdated = unixTime ∧
      (m.Update unixTime s i).item.GetCreated = i.GetCreated ∧
      (m.Update unixTime s i).item.GetId = i.GetId ∧
      (m.Update unixTime s i).item.GetNamespace = i.GetNamespace ∧
      (i.GetUpdated < (m.Update unixTime s i).item.GetUpdated ↔ i.GetUpdated < unixTime) := by
  simp [Update_item, h, Item.SetUpdated, Item.GetUpdated, Item.GetCreated, Item.GetId,
    Item.GetNamespace]

/-- C5, amended, on the reference driver: an update at second 1700000009 of a record
carrying updated 6. -/
theorem Update_sets_updated_only_witness :
    (memHandler.Update 1700000009 [] createdByTest).item.GetUpdated = 1700000009 ∧
      (memHandler.Update 1700000009 [] createdByTest).item.GetCreated = 5 :=
  ⟨(Update_sets_updated_only memHandler 1700000009 [] createdByTest rfl).2.1,
    (Update_sets_updated_only memHandler 1700000009 [] createdByTest rfl).2.2.1⟩

/-! ### C6, C10: the query List issues -/

section listclaims
variable {σ Doc : Type}

/-- C6 as stated fails: with page 2^62, limit 2 and sort 0, both `int64` values of the
claimed ranges, the skip of the one query issued is not page × limit = 2^63 but
-2^63, the product as an `int64` holds it, and the driver rejects the query for its
negative skip. -/
theorem List_skip_wraps :
    (0 : Int) ≤ 4611686018427387904 ∧ inInt64 4611686018427387904 ∧ (0 : Int) < 2 ∧
      (memHandler.List twoStored threeBlank ⟨4611686018427387904, 2, 0⟩).reqs ≠
        [Request.find "StreamSpace" [] ⟨some (4611686018427387904 * 2), some 2, none⟩] ∧
      (memHandler.List twoStored threeBlank ⟨4611686018427387904, 2, 0⟩).reqs =
        [Request.find "StreamSpace" [] ⟨some (-9223372036854775808), some 2, none⟩] ∧
      (memHandler.List twoStored threeBlank ⟨4611686018427387904, 2, 0⟩).outcome =
        ListOutcome.returned 0 (some "skip value must be non-negative") := by
  decide

/-- C6, amended: for a non-empty sequence, page ≥ 0, limit > 0 and a sort value from 0
to 4, `List` issues exactly one request, a find on the collection of the first record
with an empty filter, limit `options.limit`, the sort of the table, and skip equal to
page × limit reduced to `int64`, which is page × limit when that is below 2^63; and it
is the answer of the driver's `Find` to this query that `List` works on: its error is
the error returned, its documents are the ones the decode loop runs over. -/
theorem List_issues_one_find (m : ssMongoHandler σ Doc) (s : σ) (i0 : Item) (rest : Items)
    (o : ListOpt) (hpage : 0 ≤ o.Page) (hlimit : 0 < o.Limit)
    (hsort : o.Sort_ ∈ [0, 1, 2, 3, 4]) :
    (m.List s (i0 :: rest) o).reqs =
        [Request.find i0.GetNamespace []
          ⟨some (wrapInt64 (o.Page * o.Limit)), some o.Limit, specSortRule o.Sort_⟩] ∧
      (o.Page * o.Limit < 2 ^ 63 → wrapInt64 (o.Page * o.Limit) = o.Page * o.Limit) ∧
      (specSortRule 0 = none ∧ specSortRule 1 = some [("created", 1)] ∧
        specSortRule 2 = some [("created", -1)] ∧ specSortRule 3 = some [("updated", 1)] ∧
        specSortRule 4 = some [("updated", -1)]) ∧
      (∀ err, m.dbP.Find s i0.GetNamespace []
          ⟨some (wrapInt64 (o.Page * o.Limit)), some o.Limit, specSortRule o.Sort_⟩ =
            .error err →
        (m.List s (i0 :: rest) o).outcome = ListOutcome.returned 0 (some err) ∧
          (m.List s (i0 :: rest) o).items = i0 :: rest ∧
          (m.List s (i0 :: rest) o).decoded = 0) ∧
      (∀ docs, m.dbP.Find s i0.GetNamespace []
          ⟨some (wrapInt64 (o.Page * o.Limit)), some o.Limit, specSortRule o.Sort_⟩ =
            .ok docs →
        ((m.List s (i0 :: rest) o).outcome, (m.List s (i0 :: rest) o).items,
            (m.List s (i0 :: rest) o).decoded) =
          cursorLoop m.dbP.Decode docs 0 (i0 :: rest) 0) := by
  refine ⟨?_, ?_, by decide, ?_, ?_⟩
  · rw [List_eq_findAndDecode m s i0 rest o hsort]
    simp only [findAndDecode]
    split <;> rfl
  · intro hlt
    have h0 : 0 ≤ o.Page * o.Limit := Int.mul_nonneg hpage (le_of_lt hlimit)
    unfold wrapInt64
    omega
  · intro err hfind
    rw [List_eq_findAndDecode m s i0 rest o hsort]
    simp [findAndDecode, hfind]
  · intro docs hfind
    rw [List_eq_findAndDecode m s i0 rest o hsort]
    simp [findAndDecode, hfind]

/-- C6, amended, on the reference driver: page 1, limit 1, sort 4 gives one find with
skip 1, limit 1, ordered by `updated` descending, and the one document the driver
answers to that query, the second of the two by `updated` descending, is what `List`
puts into the first slot. -/
theorem List_issues_one_find_witness :
    (memHandler.List twoStored threeBlank ⟨1, 1, 4⟩).reqs =
        [Request.find "StreamSpace" [] ⟨some 1, some 1, some [("updated", -1)]⟩] ∧
      (memHandler.List twoStored threeBlank ⟨1, 1, 4⟩).outcome = ListOutcome.returned 1 none ∧
      (memHandler.List twoStored threeBlank ⟨1, 1, 4⟩).items =
        [storedLate, blankItem "StreamSpace" "", blankItem "StreamSpace" ""] := by
  have h := List_issues_one_find memHandler twoStored (blankItem "StreamSpace" "")
    [blankItem "StreamSpace" "", blankItem "StreamSpace" ""] ⟨1, 1, 4⟩
    (by decide) (by decide) (by decide)
  obtain ⟨hreqs, _, _, _, hok⟩ := h
  have hloop := hok [storedLate] (by rfl)
  have h1 := congrArg Prod.fst hloop
  have h2 := congrArg (fun r => r.2.1) hloop
  refine ⟨hreqs.trans (by decide), ?_, ?_⟩
  · exact h1.trans (by decide)
  · exact h2.trans (by decide)

/-- C10: for a non-empty sequence and a sort value other than 0, 1, 2, 3, 4, `List`
issues no request, decodes nothing, leaves every slot as it was and returns
`(0, nil)`. -/
theorem List_unknown_sort (m : ssMongoHandler σ Doc) (s : σ) (i0 : Item) (rest : Items)
    (o : ListOpt) (hsort : o.Sort_ ∉ [0, 1, 2, 3, 4]) :
    m.List s (i0 :: rest) o = ⟨ListOutcome.returned 0 none, i0 :: rest, [], 0⟩ := by
  simp only [List.mem_cons, List.mem_singleton, List.not_mem_nil, or_false, not_or] at hsort
  obtain ⟨h0, h1, h2, h3, h4⟩ := hsort
  simp [ssMongoHandler.List, h0, h1, h2, h3, h4]

/-- C10 on the reference driver: sort 7 on a database holding documents gives an empty
successful listing. -/
theorem List_unknown_sort_witness :
    memHandler.List twoStored threeBlank ⟨0, 3, 7⟩ =
      ⟨ListOutcome.returned 0 none, threeBlank, [], 0⟩ :=
  List_unknown_sort memHandler twoStored (blankItem "StreamSpace" "")
    [blankItem "StreamSpace" "", blankItem "StreamSpace" ""] ⟨0, 3, 7⟩ (by decide)

end listclaims

/-! ### C7, C8: the slots List fills -/

section listslots
variable {σ Doc : Type}

/-- C7: for a sort value from 0 to 4 and a sequence of at least `options.limit` > 0
slots, if the query of `List` succeeds with n ≤ limit documents that all decode, then
`List` returns `(n, nil)` without indexing outside the sequence, after n decodes; slot
k holds the k-th document for k < n, every slot from n on is as it was, and fewer
than limit documents give a count below limit with a `nil` error. -/
theorem List_fills_slots (m : ssMongoHandler σ Doc) (s : σ) (i0 : Item) (rest : Items)
    (o : ListOpt) (docs : List Doc)
    (hsort : o.Sort_ ∈ [0, 1, 2, 3, 4]) (_hlimit : 0 < o.Limit)
    (hslots : o.Limit ≤ ((i0 :: rest).length : Int))
    (hfind : m.dbP.Find s i0.GetNamespace []
      ⟨some (wrapInt64 (o.Page * o.Limit)), some o.Limit, specSortRule o.Sort_⟩ = .ok docs)
    (hn : (docs.length : Int) ≤ o.Limit)
    (hdec : ∀ (k : Nat) d slot, docs[k]? = some d → (i0 :: rest)[k]? = some slot →
      (m.dbP.Decode d slot).2 = none) :
    (m.List s (i0 :: rest) o).outcome = ListOutcome.returned docs.length none ∧
      (m.List s (i0 :: rest) o).outcome ≠ ListOutcome.panicked ∧
      (m.List s (i0 :: rest) o).decoded = docs.length ∧
      (m.List s (i0 :: rest) o).items.length = (i0 :: rest).length ∧
      (∀ (k : Nat) d slot, docs[k]? = some d → (i0 :: rest)[k]? = some slot →
        (m.List s (i0 :: rest) o).items[k]? = some (m.dbP.Decode d slot).1) ∧
      (∀ k : Nat, docs.length ≤ k → (m.List s (i0 :: rest) o).items[k]? = (i0 :: rest)[k]?) ∧
      ((docs.length : Int) < o.Limit →
        ∃ n : Nat, (m.List s (i0 :: rest) o).outcome = ListOutcome.returned n none ∧
          (n : Int) < o.Limit) := by
  have hlen : 0 + docs.length ≤ (i0 :: rest).length := by omega
  obtain ⟨h1, h2, h3, h4, h5⟩ := cursorLoop_ok m.dbP.Decode docs 0 (i0 :: rest) 0 hlen
    (fun k d slot hd hs => hdec k d slot hd (by simpa using hs))
  rw [List_eq_findAndDecode m s i0 rest o hsort]
  simp only [findAndDecode, hfind]
  simp only [Nat.zero_add] at h1 h2 h4 h5
  refine ⟨h1, ?_, h2, h3, ?_, ?_, ?_⟩
  · rw [h1]; simp
  · intro k d slot hd hs
    have := h4 k d slot hd (by simpa using hs)
    simpa using this
  · intro k hk
    exact h5 k (Or.inr hk)
  · intro hlt
    exact ⟨docs.length, h1, hlt⟩

/-- C7 on the reference driver: limit 3 over a collection of two documents, ordered by
`created` ascending, fills two of three slots and returns `(2, nil)`. -/
theorem List_fills_slots_witness :
    (memHandler.List twoStored threeBlank ⟨0, 3, 1⟩).outcome = ListOutcome.returned 2 none ∧
      (memHandler.List twoStored threeBlank ⟨0, 3, 1⟩).items =
        [storedEarly, storedLate, blankItem "StreamSpace" ""] :=
  ⟨(List_fills_slots memHandler twoStored (blankItem "StreamSpace" "")
      [blankItem "StreamSpace" "", blankItem "StreamSpace" ""] ⟨0, 3, 1⟩
      [storedEarly, storedLate] (by decide) (by decide) (by decide) (by rfl) (by decide)
      (fun _ _ _ _ _ => rfl)).1,
    by decide⟩

/-- C8: for a sort value from 0 to 4, if the find query fails, `List` returns count 0
with that error and every slot is as it was; if the cursor yields documents `pre` that
decode and then one that does not, `List` returns the decode error after
`pre.length + 1` decodes, the slots of `pre` hold their documents and the slots after
the failing one are as they were. -/
theorem List_error_paths (m : ssMongoHandler σ Doc) (s : σ) (i0 : Item) (rest : Items)
    (o : ListOpt) (hsort : o.Sort_ ∈ [0, 1, 2, 3, 4]) :
    (∀ err, m.dbP.Find s i0.GetNamespace []
        ⟨some (wrapInt64 (o.Page * o.Limit)), some o.Limit, specSortRule o.Sort_⟩ = .error err →
      (m.List s (i0 :: rest) o).outcome = ListOutcome.returned 0 (some err) ∧
        (m.List s (i0 :: rest) o).items = i0 :: rest ∧
        (m.List s (i0 :: rest) o).decoded = 0) ∧
    (∀ (pre : List Doc) (bad : Doc) (tail : List Doc) (slot : Item) (err : Err),
      m.dbP.Find s i0.GetNamespace []
        ⟨some (wrapInt64 (o.Page * o.Limit)), some o.Limit, specSortRule o.Sort_⟩ =
          .ok (pre ++ bad :: tail) →
      (∀ (k : Nat) d sl, pre[k]? = some d → (i0 :: rest)[k]? = some sl → (m.dbP.Decode d sl).2 = none) →
      (i0 :: rest)[pre.length]? = some slot →
      (m.dbP.Decode bad slot).2 = some err →
      (m.List s (i0 :: rest) o).outcome = ListOutcome.returned 0 (some err) ∧
        (m.List s (i0 :: rest) o).decoded = pre.length + 1 ∧
        (m.List s (i0 :: rest) o).items.length = (i0 :: rest).length ∧
        (∀ (k : Nat) d sl, pre[k]? = some d → (i0 :: rest)[k]? = some sl →
          (m.List s (i0 :: rest) o).items[k]? = some (m.dbP.Decode d sl).1) ∧
        (m.List s (i0 :: rest) o).items[pre.length]? = some (m.dbP.Decode bad slot).1 ∧
        (∀ j : Nat, pre.length < j → (m.List s (i0 :: rest) o).items[j]? = (i0 :: rest)[j]?)) := by
  rw [List_eq_findAndDecode m s i0 rest o hsort]
  constructor
  · intro err hfind
    simp [findAndDecode, hfind]
  · intro pre bad tail slot err hfind hdec hslot hbad
    obtain ⟨h1, h2, h3, h4, h5, h6⟩ := cursorLoop_fail m.dbP.Decode bad tail err pre 0
      (i0 :: rest) 0 slot (fun k d sl hd hs => hdec k d sl hd (by simpa using hs))
      (by simpa using hslot) hbad
    simp only [findAndDecode, hfind]
    simp only [Nat.zero_add] at h2 h4 h5 h6
    refine ⟨h1, h2, h3, ?_, h5, ?_⟩
    · intro k d sl hd hs
      have := h4 k d sl hd (by simpa using hs)
      simpa using this
    · intro j hj
      exact h6 j (Or.inr hj)

/-- C8 on the reference driver: a rejected query (negative skip) leaves three blank
slots and returns its error; with a second document that does not decode, the first
slot keeps the first document, the third slot stays blank, and the third document is
not decoded. -/
theorem List_error_paths_witness :
    ((memHandler.List twoStored threeBlank ⟨-1, 3, 0⟩).outcome =
        ListOutcome.returned 0 (some "skip value must be non-negative") ∧
      (memHandler.List twoStored threeBlank ⟨-1, 3, 0⟩).items = threeBlank) ∧
    ((strictHandler.List corruptStored threeBlank ⟨0, 3, 0⟩).outcome =
        ListOutcome.returned 0 (some "cannot decode") ∧
      (strictHandler.List corruptStored threeBlank ⟨0, 3, 0⟩).decoded = 2 ∧
      (strictHandler.List corruptStored threeBlank ⟨0, 3, 0⟩).items =
        [storedLate, blankItem "StreamSpace" "", blankItem "StreamSpace" ""]) :=
  ⟨⟨((List_error_paths memHandler twoStored (blankItem "StreamSpace" "")
        [blankItem "StreamSpace" "", blankItem "StreamSpace" ""] ⟨-1, 3, 0⟩ (by decide)).1
        "skip value must be non-negative" (by rfl)).1,
      ((List_error_paths memHandler twoStored (blankItem "StreamSpace" "")
        [blankItem "StreamSpace" "", blankItem "StreamSpace" ""] ⟨-1, 3, 0⟩ (by decide)).1
        "skip value must be non-negative" (by rfl)).2.1⟩,
    ⟨((List_error_paths strictHandler corruptStored (blankItem "StreamSpace" "")
        [blankItem "StreamSpace" "", blankItem "StreamSpace" ""] ⟨0, 3, 0⟩ (by decide)).2
        [storedLate] storedCorrupt [storedEarly] (blankItem "StreamSpace" "") "cannot decode"
        (by rfl) (by intro k d sl hd _; cases k <;> simp at hd; subst hd; rfl) (by rfl) (by rfl)).1,
      ((List_error_paths strictHandler corruptStored (blankItem "StreamSpace" "")
        [blankItem "StreamSpace" "", blankItem "StreamSpace" ""] ⟨0, 3, 0⟩ (by decide)).2
        [storedLate] storedCorrupt [storedEarly] (blankItem "StreamSpace" "") "cannot decode"
        (by rfl) (by intro k d sl hd _; cases k <;> simp at hd; subst hd; rfl) (by rfl) (by rfl)).2.1,
      by decide⟩⟩

end listslots

/-! ### C9: Create, then Read -/

/-- C9: on a driver with `ReadYourWrite`, if `Create` succeeds, then `Read`, run on the
database `Create` leaves, of a blank record for the created one (same type, namespace
and identifier, every other field zero) succeeds and leaves the blank record equal to
the created one in every field. -/
theorem Create_then_Read {σ Doc : Type} (m : ssMongoHandler σ Doc) (uuid : String)
    (unixTime : Int) (s : σ) (i blank : Item)
    (hdriver : ReadYourWrite m.dbP)
    (hcreate : (m.Create uuid unixTime s i).err = none)
    (hblank : blank.isBlankFor (m.Create uuid unixTime s i).item) :
    (m.Read (m.Create uuid unixTime s i).state blank).err = none ∧
      (m.Read (m.Create uuid unixTime s i).state blank).item =
        (m.Create uuid unixTime s i).item := by
  have hns : blank.GetNamespace = i.GetNamespace := by
    have := hblank.1
    simpa [Create_item, Item.GetNamespace] using this
  have hid : blank.GetId = (m.Create uuid unixTime s i).item.GetId := hblank.2.1
  have hstate : (m.Create uuid unixTime s i).state =
      (m.dbP.InsertOne s i.GetNamespace (m.Create uuid unixTime s i).item).1 := by
    obtain ⟨ns, id, st, c, u, a, b⟩ := i
    cases a <;> cases b <;>
      simp only [ssMongoHandler.Create, Item.SetID, Item.SetCreated, Item.SetUpdated,
        Item.GetNamespace] <;>
      split <;> simp_all
  have herr : (m.Create uuid unixTime s i).err =
      (m.dbP.InsertOne s i.GetNamespace (m.Create uuid unixTime s i).item).2 := by
    obtain ⟨ns, id, st, c, u, a, b⟩ := i
    cases a <;> cases b <;>
      simp only [ssMongoHandler.Create, Item.SetID, Item.SetCreated, Item.SetUpdated,
        Item.GetNamespace] <;>
      split <;> simp_all
  rw [herr] at hcreate
  obtain ⟨doc, hfind, hdec⟩ := hdriver s _ i.GetNamespace (m.Create uuid unixTime s i).item
    (Prod.ext rfl hcreate)
  have hd := hdec blank hblank
  rw [hstate]
  simp only [ssMongoHandler.Read, hns, hid, hfind, hd]
  simp

/-- C9 on the reference driver, whose decoder leaves a field the document lacks as it
was: a record created under the generated identifier `"u1"` at second 1700000000 is
read back, into a blank record, with that identifier and both timestamps. -/
theorem Create_then_Read_witness :
    (memHandler.Create "u1" 1700000000 twoStored settableItem).err = none ∧
      Item.isBlankFor ⟨"StreamSpace", "u1", "", 0, 0, true, true⟩
        (memHandler.Create "u1" 1700000000 twoStored settableItem).item ∧
      (memHandler.Read (memHandler.Create "u1" 1700000000 twoStored settableItem).state
        ⟨"StreamSpace", "u1", "", 0, 0, true, true⟩).err = none ∧
      (memHandler.Read (memHandler.Create "u1" 1700000000 twoStored settableItem).state
        ⟨"StreamSpace", "u1", "", 0, 0, true, true⟩).item =
        ⟨"StreamSpace", "u1", "Golang create", 1700000000, 1700000000, true, true⟩ :=
  ⟨by decide, by decide,
    (Create_then_Read memHandler "u1" 1700000000 twoStored settableItem
      ⟨"StreamSpace", "u1", "", 0, 0, true, true⟩ memDriver_readYourWrite
      (by decide) (by decide)).1,
    (Create_then_Read memHandler "u1" 1700000000 twoStored settableItem
      ⟨"StreamSpace", "u1", "", 0, 0, true, true⟩ memDriver_readYourWrite
      (by decide) (by decide)).2.trans (by decide)⟩
